import Mathlib

/-!
# Verification of the vscode-bazel-extension core design against its specification

This file gives a shallow embedding, in Lean 4, of the core components of the
vscode-bazel-extension repository as laid out in its design sources:

* the BUILD-file parser (`bazel-lsp/src/bazel/parser.rs` together with the pest
  grammar `bazel-lsp/src/bazel/build.pest`),
* the build graph (`bazel-lsp/src/bazel/build_graph.rs`),
* the Bazel client with its query cache (`bazel-lsp/src/bazel/client.rs`),
* the parse cache (`bazel-lsp/src/bazel/cache.rs`),

and proves or refutes the frozen claims about them.

Modelling conventions:

* Rust `String`/`&str` become `String` or `List Char`; machine integers become
  `Nat`/`Int` (i64 overflow of numeric literals is not modelled: numeric
  literals are parsed into `Int`).
* `Instant`/`Duration` become `Nat` timestamps with `elapsed = now - then`.
* `HashMap`/`DashMap`/`LruCache` become association lists with explicit
  insert/lookup functions reproducing the respective overwrite semantics.
* pest's `Pairs` navigation is modelled at the level of the grammar structure:
  iterating the parsed file yields its statements, and a wrapper rule such as
  `value` or `list_item` stands for the alternative it matched.  Source
  positions (`Location { line, column }`) are carried by no claim and are not
  modelled.
* the pest PEG semantics is embedded directly: ordered choice with local
  backtracking, greedy repetition, implicit `WHITESPACE`/`COMMENT` skipping
  between the components of non-atomic rules and none inside atomic (`@`)
  rules.  The statement and value recursions are driven by an explicit fuel
  which is amply large for every input (`4 * length + 16`); exhausted fuel can
  only cause a parse failure, never a fabricated success.
-/

namespace VBE

/-! ## Character classes of the pest grammar

`WHITESPACE = _{ " " | "\t" | "\r" | "\n" }`, `COMMENT = _{ "#" ~ (!"\n" ~ ANY)* }`,
`identifier = @{ (ASCII_ALPHA | "_") ~ (ASCII_ALPHANUMERIC | "_")* }`. -/

def isWsChar (c : Char) : Bool :=
  c == ' ' || c == '\t' || c == '\r' || c == '\n'

def isIdentStart (c : Char) : Bool :=
  c.isAlpha || c == '_'

def isIdentChar (c : Char) : Bool :=
  c.isAlphanum || c == '_'

/-- Skip the body of a comment: every character up to (but excluding) the next
newline, which remains in the input and is consumed as whitespace. -/
def skipComment : List Char → List Char
  | [] => []
  | c :: cs => if c == '\n' then c :: cs else skipComment cs

/-- Fuelled worker for implicit `WHITESPACE`/`COMMENT` skipping. -/
def skipWsFuel : Nat → List Char → List Char
  | 0, cs => cs
  | _ + 1, [] => []
  | fuel + 1, c :: cs =>
      if isWsChar c then skipWsFuel fuel cs
      else if c == '#' then skipWsFuel fuel (skipComment cs)
      else c :: cs

/-- Implicit whitespace-and-comment skipping between tokens of non-atomic
rules.  One unit of fuel per character is always enough because every step of
`skipWsFuel` consumes at least one character. -/
def skipWs (cs : List Char) : List Char :=
  skipWsFuel (cs.length + 1) cs

/-! ## Atomic token parsers (no implicit whitespace inside) -/

/-- Parse `identifier = @{ (ASCII_ALPHA | "_") ~ (ASCII_ALPHANUMERIC | "_")* }`. -/
def parseIdent : List Char → Option (String × List Char)
  | [] => none
  | c :: cs =>
      if isIdentStart c then
        some (String.mk (c :: cs.takeWhile isIdentChar), cs.dropWhile isIdentChar)
      else none

/-- Match a literal character sequence. -/
def matchLit : List Char → List Char → Option (List Char)
  | [], cs => some cs
  | _ :: _, [] => none
  | l :: ls, c :: cs => if c == l then matchLit ls cs else none

/-- Scan for a closing quote, returning the span before it and the input after
it (the grammar has no escape sequences: `(!"\"" ~ ANY)*`). -/
def scanUntil (q : Char) : List Char → Option (List Char × List Char)
  | [] => none
  | c :: cs =>
      if c == q then some ([], cs)
      else match scanUntil q cs with
        | some (body, rest) => some (c :: body, rest)
        | none => none

/-- Parse `string = @{ "\"" ~ (!"\"" ~ ANY)* ~ "\"" | "'" ~ (!"'" ~ ANY)* ~ "'" }`.
The returned string is the content without the enclosing quotes, matching the
`s[1..s.len()-1]` stripping done by `parse_value`. -/
def parseStringLit : List Char → Option (String × List Char)
  | '"' :: cs =>
      match scanUntil '"' cs with
      | some (body, rest) => some (String.mk body, rest)
      | none => none
  | '\'' :: cs =>
      match scanUntil '\'' cs with
      | some (body, rest) => some (String.mk body, rest)
      | none => none
  | _ => none

def digitsToNat (ds : List Char) : Nat :=
  ds.foldl (fun a c => a * 10 + (c.toNat - '0'.toNat)) 0

/-- Parse `number = @{ "-"? ~ ASCII_DIGIT+ }` into an integer (the Rust code
parses the span with `str::parse::<i64>`; overflow is not modelled). -/
def parseNumber (cs : List Char) : Option (Int × List Char) :=
  let (neg, cs₁) := match cs with
    | '-' :: r => (true, r)
    | _ => (false, cs)
  match cs₁ with
  | c :: _ =>
      if c.isDigit then
        let n : Int := (digitsToNat (cs₁.takeWhile Char.isDigit) : Nat)
        some ((if neg then -n else n), cs₁.dropWhile Char.isDigit)
      else none
  | [] => none

/-- Parse `boolean = { "True" | "False" }`. -/
def parseBoolean (cs : List Char) : Option (Bool × List Char) :=
  match matchLit "True".data cs with
  | some rest => some (true, rest)
  | none =>
      match matchLit "False".data cs with
      | some rest => some (false, rest)
      | none => none

/-- Parse
`target_ref = @{ ("//" ~ (!":" ~ !WHITESPACE ~ ANY)* ~ ":" ~ identifier) | (":" ~ identifier) | identifier }`,
returning the raw matched text (`Value::TargetRef(pair.as_str())`). -/
def parseTargetRef (cs : List Char) : Option (String × List Char) :=
  let alt1 : Option (String × List Char) :=
    match matchLit "//".data cs with
    | some rest =>
        let body := rest.takeWhile (fun c => !(c == ':') && !isWsChar c)
        let rest₁ := rest.dropWhile (fun c => !(c == ':') && !isWsChar c)
        match rest₁ with
        | ':' :: rest₂ =>
            match parseIdent rest₂ with
            | some (n, rest₃) => some ("//" ++ String.mk body ++ ":" ++ n, rest₃)
            | none => none
        | _ => none
    | none => none
  match alt1 with
  | some r => some r
  | none =>
      match cs with
      | ':' :: rest =>
          match parseIdent rest with
          | some (n, rest₁) => some (":" ++ n, rest₁)
          | none =>
              match parseIdent cs with
              | some (n, rest₁) => some (n, rest₁)
              | none => none
      | _ =>
          match parseIdent cs with
          | some (n, rest₁) => some (n, rest₁)
          | none => none

/-! ## Grammar-level abstract syntax

`value`/`list_item` wrap the alternative they matched.  `parse_value` in the
Rust source has no case for `Rule::dict` or a nested `Rule::function_call`:
both fall into the `_ => Ok(Value::String(pair.as_str()))` catch-all, so at
value level these two shapes are retained only as their raw matched text. -/

inductive PValue where
  | vstring (s : String)
  | vnumber (n : Int)
  | vbool (b : Bool)
  | vlist (items : List PValue)
  | vtargetRef (raw : String)
  | vident (s : String)
  | vdictRaw (raw : String)
  | vcallRaw (raw : String)
  deriving Repr

inductive PArg where
  | named (name : String) (value : PValue)
  | positional (value : PValue)
  deriving Repr

inductive Stmt where
  | load (module : String) (items : List (String × String))
  | functionCall (kind : String) (args : List PArg)
  | assignment (name : String) (value : PValue)
  deriving Repr

/-- The raw text a span covers: the characters of `before` that are no longer
present in `after` (used for the `pair.as_str()` of dict and nested-call
values). -/
def spanText (before after : List Char) : String :=
  String.mk (before.take (before.length - after.length))

/-! ## The fuelled grammar parser

One mutually recursive block per the grammar's recursive core:
`value`, `list`, `dict`, `function_call` and their repetition loops.
Every function consumes implicit whitespace between the components of its
rule, never before its first token (callers do that). -/

mutual

/-- Parse `value = { string | number | boolean | list | dict | function_call | identifier }`
(ordered choice). -/
def parseValue : Nat → List Char → Option (PValue × List Char)
  | 0, _ => none
  | fuel + 1, cs =>
      match parseStringLit cs with
      | some (s, r) => some (.vstring s, r)
      | none =>
      match parseNumber cs with
      | some (n, r) => some (.vnumber n, r)
      | none =>
      match parseBoolean cs with
      | some (b, r) => some (.vbool b, r)
      | none =>
      match parseList fuel cs with
      | some (items, r) => some (.vlist items, r)
      | none =>
      match parseDict fuel cs with
      | some r => some (.vdictRaw (spanText cs r), r)
      | none =>
      match parseFunctionCall fuel cs with
      | some (_, r) => some (.vcallRaw (spanText cs r), r)
      | none =>
      match parseIdent cs with
      | some (n, r) => some (.vident n, r)
      | none => none

/-- Parse `list_item = { string | target_ref | number | boolean | list | dict | function_call }`
(ordered choice; note `target_ref`, and no bare `identifier`). -/
def parseListItem : Nat → List Char → Option (PValue × List Char)
  | 0, _ => none
  | fuel + 1, cs =>
      match parseStringLit cs with
      | some (s, r) => some (.vstring s, r)
      | none =>
      match parseTargetRef cs with
      | some (t, r) => some (.vtargetRef t, r)
      | none =>
      match parseNumber cs with
      | some (n, r) => some (.vnumber n, r)
      | none =>
      match parseBoolean cs with
      | some (b, r) => some (.vbool b, r)
      | none =>
      match parseList fuel cs with
      | some (items, r) => some (.vlist items, r)
      | none =>
      match parseDict fuel cs with
      | some r => some (.vdictRaw (spanText cs r), r)
      | none =>
      match parseFunctionCall fuel cs with
      | some (_, r) => some (.vcallRaw (spanText cs r), r)
      | none => none

/-- Parse `list = { "[" ~ (list_item ~ ("," ~ list_item)*)? ~ ","? ~ "]" }`. -/
def parseList : Nat → List Char → Option (List PValue × List Char)
  | 0, _ => none
  | fuel + 1, cs =>
      match cs with
      | '[' :: cs₁ =>
          let (items, cs₂) :=
            match parseListItem fuel (skipWs cs₁) with
            | some (v, r) =>
                let (vs, r₁) := parseListItemsLoop fuel r
                (v :: vs, r₁)
            | none => ([], cs₁)
          let cs₃ := skipWs cs₂
          let cs₄ := match cs₃ with
            | ',' :: r => skipWs r
            | _ => cs₃
          match cs₄ with
          | ']' :: r => some (items, r)
          | _ => none
      | _ => none

/-- Greedy `("," ~ list_item)*`; each iteration is attempted atomically. -/
def parseListItemsLoop : Nat → List Char → (List PValue × List Char)
  | 0, cs => ([], cs)
  | fuel + 1, cs =>
      match skipWs cs with
      | ',' :: cs₁ =>
          match parseListItem fuel (skipWs cs₁) with
          | some (v, r) =>
              let (vs, r₁) := parseListItemsLoop fuel r
              (v :: vs, r₁)
          | none => ([], cs)
      | _ => ([], cs)

/-- Parse `dict = { "{" ~ (dict_entry ~ ("," ~ dict_entry)*)? ~ ","? ~ "}" }`
with `dict_entry = { string ~ ":" ~ value }`; only the consumed extent matters
(value level keeps a dict as its raw text), so the result is the rest. -/
def parseDict : Nat → List Char → Option (List Char)
  | 0, _ => none
  | fuel + 1, cs =>
      match cs with
      | '{' :: cs₁ =>
          let entries :=
            match parseDictEntry fuel (skipWs cs₁) with
            | some r =>
                some (parseDictEntriesLoop fuel r)
            | none => none
          let cs₂ := match entries with
            | some r => r
            | none => cs₁
          let cs₃ := skipWs cs₂
          let cs₄ := match cs₃ with
            | ',' :: r => skipWs r
            | _ => cs₃
          match cs₄ with
          | '}' :: r => some r
          | _ => none
      | _ => none

/-- Parse one `dict_entry = { string ~ ":" ~ value }`. -/
def parseDictEntry : Nat → List Char → Option (List Char)
  | 0, _ => none
  | fuel + 1, cs =>
      match parseStringLit cs with
      | some (_, r) =>
          match skipWs r with
          | ':' :: r₁ =>
              match parseValue fuel (skipWs r₁) with
              | some (_, r₂) => some r₂
              | none => none
          | _ => none
      | none => none

/-- Greedy `("," ~ dict_entry)*`. -/
def parseDictEntriesLoop : Nat → List Char → List Char
  | 0, cs => cs
  | fuel + 1, cs =>
      match skipWs cs with
      | ',' :: cs₁ =>
          match parseDictEntry fuel (skipWs cs₁) with
          | some r => parseDictEntriesLoop fuel r
          | none => cs
      | _ => cs

/-- Parse `function_call = { identifier ~ "(" ~ (argument ~ ("," ~ argument)*)? ~ ","? ~ ")" }`. -/
def parseFunctionCall : Nat → List Char → Option ((String × List PArg) × List Char)
  | 0, _ => none
  | fuel + 1, cs =>
      match parseIdent cs with
      | some (name, cs₁) =>
          match skipWs cs₁ with
          | '(' :: cs₂ =>
              let (args, cs₃) :=
                match parseArgument fuel (skipWs cs₂) with
                | some (a, r) =>
                    let (as', r₁) := parseArgsLoop fuel r
                    (a :: as', r₁)
                | none => ([], cs₂)
              let cs₄ := skipWs cs₃
              let cs₅ := match cs₄ with
                | ',' :: r => skipWs r
                | _ => cs₄
              match cs₅ with
              | ')' :: r => some ((name, args), r)
              | _ => none
          | _ => none
      | none => none

/-- Greedy `("," ~ argument)*`. -/
def parseArgsLoop : Nat → List Char → (List PArg × List Char)
  | 0, cs => ([], cs)
  | fuel + 1, cs =>
      match skipWs cs with
      | ',' :: cs₁ =>
          match parseArgument fuel (skipWs cs₁) with
          | some (a, r) =>
              let (as', r₁) := parseArgsLoop fuel r
              (a :: as', r₁)
          | none => ([], cs)
      | _ => ([], cs)

/-- Parse `argument = { (identifier ~ "=" ~ value) | value }` (ordered choice
with backtracking to the second alternative). -/
def parseArgument : Nat → List Char → Option (PArg × List Char)
  | 0, _ => none
  | fuel + 1, cs =>
      let named : Option (PArg × List Char) :=
        match parseIdent cs with
        | some (n, r) =>
            match skipWs r with
            | '=' :: r₁ =>
                match parseValue fuel (skipWs r₁) with
                | some (v, r₂) => some (.named n v, r₂)
                | none => none
            | _ => none
        | none => none
      match named with
      | some r => some r
      | none =>
          match parseValue fuel cs with
          | some (v, r) => some (.positional v, r)
          | none => none

end

/-- Parse the tail `("," ~ string ~ "=" ~ string)*` of a load statement. -/
def parseLoadItemsLoop : Nat → List Char → (List (String × String) × List Char)
  | 0, cs => ([], cs)
  | fuel + 1, cs =>
      match skipWs cs with
      | ',' :: cs₁ =>
          match parseStringLit (skipWs cs₁) with
          | some (a, r) =>
              match skipWs r with
              | '=' :: r₁ =>
                  match parseStringLit (skipWs r₁) with
                  | some (b, r₂) =>
                      let (items, r₃) := parseLoadItemsLoop fuel r₂
                      ((a, b) :: items, r₃)
                  | none => ([], cs)
              | _ => ([], cs)
          | none => ([], cs)
      | _ => ([], cs)

/-- Parse `load_stmt = { "load" ~ "(" ~ string ~ ("," ~ string ~ "=" ~ string)* ~ ")" }`. -/
def parseLoadStmt (fuel : Nat) (cs : List Char) : Option (Stmt × List Char) :=
  match matchLit "load".data cs with
  | some cs₁ =>
      match skipWs cs₁ with
      | '(' :: cs₂ =>
          match parseStringLit (skipWs cs₂) with
          | some (m, cs₃) =>
              let (items, cs₄) := parseLoadItemsLoop fuel cs₃
              match skipWs cs₄ with
              | ')' :: r => some (.load m items, r)
              | _ => none
          | none => none
      | _ => none
  | none => none

/-- Parse `assignment = { identifier ~ "=" ~ value }`. -/
def parseAssignment (fuel : Nat) (cs : List Char) : Option (Stmt × List Char) :=
  match parseIdent cs with
  | some (n, r) =>
      match skipWs r with
      | '=' :: r₁ =>
          match parseValue fuel (skipWs r₁) with
          | some (v, r₂) => some (.assignment n v, r₂)
          | none => none
      | _ => none
  | none => none

/-- Parse `statement = { load_stmt | function_call | assignment }` (ordered). -/
def parseStatement (fuel : Nat) (cs : List Char) : Option (Stmt × List Char) :=
  match parseLoadStmt fuel cs with
  | some r => some r
  | none =>
      match parseFunctionCall fuel cs with
      | some ((name, args), r) => some (.functionCall name args, r)
      | none => parseAssignment fuel cs

/-- Greedy `statement*` of `file = { SOI ~ statement* ~ EOI }`; the returned
rest has the implicit trailing whitespace already skipped. -/
def parseStatements : Nat → List Char → (List Stmt × List Char)
  | 0, cs => ([], skipWs cs)
  | fuel + 1, cs =>
      let cs₁ := skipWs cs
      match parseStatement fuel cs₁ with
      | some (s, r) =>
          let (ss, r₁) := parseStatements fuel r
          (s :: ss, r₁)
      | none => ([], cs₁)

/-- A parse error: pest reports the whole-file parse failure positioned at the
input it could not consume; the unconsumed remainder identifies that position. -/
structure ParseErr where
  remaining : List Char
  deriving Repr

/-- Whether an `Except` result is the error case. -/
def exceptIsError : Except ε α → Bool
  | .error _ => true
  | .ok _ => false

/-- Parse `file = { SOI ~ statement* ~ EOI }`: the statements must consume the
entire input, otherwise the parse of the whole file fails, exactly as
`BuildParser::parse(Rule::file, content)?` propagates a pest error. -/
def parseFile (cs : List Char) : Except ParseErr (List Stmt) :=
  let (stmts, rest) := parseStatements (4 * cs.length + 16) cs
  if rest.isEmpty then .ok stmts else .error ⟨rest⟩

/-! ## `BuildFileParser`: promotion of statements to rules

Embedding of `impl BuildFileParser` from `bazel-lsp/src/bazel/parser.rs`. -/

/-- The `Value` enum of the parser module. -/
inductive Value where
  | string (s : String)
  | number (n : Int)
  | boolean (b : Bool)
  | list (items : List Value)
  | dict (entries : List (String × Value))
  | targetRef (s : String)
  | identifier (s : String)
  deriving Repr

mutual

/-- `BuildFileParser::parse_value`: convert a matched value alternative to a
`Value`.  Dict and nested-call shapes have no dedicated arm and fall into the
`_ => Ok(Value::String(pair.as_str()))` catch-all, becoming their raw text. -/
def parse_value : PValue → Value
  | .vstring s => .string s
  | .vnumber n => .number n
  | .vbool b => .boolean b
  | .vlist items => .list (parse_value_list items)
  | .vtargetRef raw => .targetRef raw
  | .vident s => .identifier s
  | .vdictRaw raw => .string raw
  | .vcallRaw raw => .string raw

/-- Values of the items of a list (`Rule::list` arm of `parse_value`). -/
def parse_value_list : List PValue → List Value
  | [] => []
  | v :: vs => parse_value v :: parse_value_list vs

end

/-- A parsed and promoted rule: the `Rule` struct of the parser module (its
`location` field is carried by no claim and is not modelled). -/
structure BRule where
  name : String
  kind : String
  attributes : List (String × Value)
  deriving Repr

/-- Insert with overwrite, the effect of `HashMap::insert`. -/
def insertAttr (m : List (String × Value)) (k : String) (v : Value) :
    List (String × Value) :=
  (k, v) :: m.filter (fun p => !(p.1 == k))

/-- `BuildFileParser::is_bazel_rule`: the hard-coded allow-list of rule kinds. -/
def is_bazel_rule (name : String) : Bool :=
  name == "cc_binary" || name == "go_binary" || name == "java_binary" ||
  name == "py_binary" || name == "rust_binary" ||
  name == "cc_library" || name == "go_library" || name == "java_library" ||
  name == "py_library" || name == "rust_library" ||
  name == "cc_test" || name == "go_test" || name == "java_test" ||
  name == "py_test" || name == "rust_test" ||
  name == "scio_java_test" || name == "scio_java_junit5_test" ||
  name == "scio_go_test" ||
  name == "proto_library" || name == "java_proto_library" ||
  name == "go_proto_library" ||
  name == "filegroup" || name == "genrule" || name == "test_suite" ||
  name == "package"

/-- The attribute map built by `parse_statement`'s argument loop: a named
argument is inserted under its name, a positional argument under `"name"`. -/
def attributesOf (args : List PArg) : List (String × Value) :=
  args.foldl
    (fun m a =>
      match a with
      | .named n v => insertAttr m n (parse_value v)
      | .positional v => insertAttr m "name" (parse_value v))
    []

/-- `BuildFileParser::parse_statement`: only a `function_call` statement whose
call name passes `is_bazel_rule` and whose `name` attribute resolves to a
string yields a rule (named `//<package>:<name>`); every other statement
yields `None`. -/
def parse_statement (pkg : String) : Stmt → Option BRule
  | .functionCall kind args =>
      if is_bazel_rule kind then
        let attributes := attributesOf args
        match attributes.lookup "name" with
        | some (Value.string n) =>
            some ⟨"//" ++ pkg ++ ":" ++ n, kind, attributes⟩
        | _ => none
      else none
  | _ => none

/-- The collection loop of `BuildFileParser::parse`: keep exactly the
statements `parse_statement` promotes. -/
def promoteStatements (pkg : String) (stmts : List Stmt) : List BRule :=
  stmts.filterMap (parse_statement pkg)

/-- `BuildFileParser::parse`: run the pest grammar over the whole file — a
grammar failure is propagated by `?` as an error for the whole file — and
promote the parsed statements. -/
def parse (pkg content : String) : Except ParseErr (List BRule) :=
  match parseFile content.data with
  | .ok stmts => .ok (promoteStatements pkg stmts)
  | .error e => .error e

/-! ## Supporting lemmas about the parser -/

/-- Whitespace skipping stops immediately at `'?'`. -/
theorem skipWs_qmark (rest : List Char) : skipWs ('?' :: rest) = '?' :: rest := rfl

/-- No alternative of `statement` can start at a `'?'`. -/
theorem parseStatement_qmark (f : Nat) (rest : List Char) :
    parseStatement f ('?' :: rest) = none := by
  cases f with
  | zero => rfl
  | succ f => rfl

/-- The greedy statement loop consumes nothing from an input that starts with
`'?'`. -/
theorem parseStatements_qmark (f : Nat) (rest : List Char) :
    parseStatements f ('?' :: rest) = ([], '?' :: rest) := by
  cases f with
  | zero => rfl
  | succ f => simp only [parseStatements, skipWs_qmark, parseStatement_qmark]

/-- A promoted rule always carries an allow-listed kind. -/
theorem parse_statement_kind (pkg : String) (st : Stmt) (r : BRule)
    (h : parse_statement pkg st = some r) : is_bazel_rule r.kind = true := by
  cases st with
  | load m items => simp [parse_statement] at h
  | assignment n v => simp [parse_statement] at h
  | functionCall k args =>
      by_cases hk : is_bazel_rule k
      · simp only [parse_statement, hk, if_true] at h
        split at h
        · cases h
          simpa using hk
        · cases h
      · simp [parse_statement, hk] at h

/-- A `function_call` whose kind is not allow-listed is not promoted. -/
theorem parse_statement_not_allowed (pkg k : String) (args : List PArg)
    (hk : is_bazel_rule k = false) :
    parse_statement pkg (Stmt.functionCall k args) = none := by
  simp [parse_statement, hk]

/-- A `function_call` without a string-valued `name` attribute is not
promoted, allow-listed or not. -/
theorem parse_statement_no_name (pkg k : String) (args : List PArg)
    (hn : ∀ n, (attributesOf args).lookup "name" ≠ some (Value.string n)) :
    parse_statement pkg (Stmt.functionCall k args) = none := by
  by_cases hk : is_bazel_rule k
  · simp only [parse_statement, hk, if_true]
  · simp [parse_statement, hk]

/-! ## Claim C1 — parser error handling

The specification claims `parse(text)` "returns the pair of successfully
parsed statements and positional diagnostics without aborting", recovering at
statement boundaries.  The source propagates the pest error of
`BuildParser::parse(Rule::file, content)?` for the whole file: there is no
recovery, no diagnostics channel, and a valid prefix is discarded. -/

/-- Claim C1, counterexample: on the input
`go_binary(name = "a")` followed by a newline and `?`, `parse` returns an
error for the whole file even though its first statement parses successfully
on its own (second conjunct) — no recovery, no partial statement list. -/
theorem claim1_counterexample :
    exceptIsError (parse "pkg" "go_binary(name = \"a\")\n?") = true ∧
      parse "pkg" "go_binary(name = \"a\")" =
        .ok [⟨"//pkg:a", "go_binary", [("name", Value.string "a")]⟩] :=
  ⟨rfl, rfl⟩

/-- Claim C1, amended: `parse` aborts with a single whole-file error whenever
the input has an unparsable region, returning no statements and no
diagnostics.  Quantified form: for every input whose first token is
unparsable (a leading `'?'`), `parse` returns the whole-file error positioned
there — even though the remainder `rest` may contain arbitrarily many valid
statements, none is recovered or returned. -/
theorem claim1_parse_aborts_whole_file (pkg : String) (rest : List Char) :
    parse pkg (String.mk ('?' :: rest)) = .error ⟨'?' :: rest⟩ := by
  show (match parseFile ('?' :: rest) with
    | .ok stmts => Except.ok (promoteStatements pkg stmts)
    | .error e => Except.error e) = Except.error ⟨'?' :: rest⟩
  simp only [parseFile, parseStatements_qmark]
  rfl

/-! ## Claim C6 — allow-list promotion

The specification claims a rule invocation whose call name is not on the
allow-list is "retained (its statement is kept) but not entered into the
graph's indices".  In the source, `parse_statement` returns `Ok(None)` for
such an invocation and `parse` pushes nothing: the invocation is discarded
from the result entirely, `parse` returning only the promoted rules. -/

/-- Claim C6, counterexample: a parse result containing a non-allow-listed
invocation retains nothing of it — the result equals that of an empty file —
while the same invocation with an allow-listed call name is promoted. -/
theorem claim6_counterexample :
    parse "pkg" "custom_macro(name = \"x\")" = .ok [] ∧
      parse "pkg" "" = .ok [] ∧
      parse "pkg" "go_binary(name = \"x\")" =
        .ok [⟨"//pkg:x", "go_binary", [("name", Value.string "x")]⟩] :=
  ⟨rfl, rfl, rfl⟩

/-- Claim C6, amended: an invocation is promoted to a rule exactly when its
call name is on the (hard-coded) allow-list: every rule `parse` returns has
an allow-listed kind, and an invocation whose kind is not allow-listed
contributes nothing to the result — it is discarded, not retained. -/
theorem claim6_allowlist_promotion :
    (∀ (pkg content : String) (rules : List BRule),
        parse pkg content = .ok rules →
          ∀ r ∈ rules, is_bazel_rule r.kind = true) ∧
      (∀ (pkg : String) (s₁ s₂ : List Stmt) (k : String) (args : List PArg),
        is_bazel_rule k = false →
          promoteStatements pkg (s₁ ++ Stmt.functionCall k args :: s₂) =
            promoteStatements pkg (s₁ ++ s₂)) := by
  constructor
  · intro pkg content rules h r hr
    unfold parse at h
    split at h
    · cases h
      obtain ⟨st, _, hps⟩ := List.mem_filterMap.mp hr
      exact parse_statement_kind pkg st r hps
    · cases h
  · intro pkg s₁ s₂ k args hk
    simp [promoteStatements, List.filterMap_append, List.filterMap_cons,
      parse_statement_not_allowed pkg k args hk]

/-- Claim C6, witness: instantiating the amended theorem at a concrete parse
(the promoted `go_binary` rule has an allow-listed kind) and at a concrete
non-allow-listed invocation (which contributes nothing). -/
theorem claim6_witness :
    is_bazel_rule
        (BRule.mk "//pkg:x" "go_binary" [("name", Value.string "x")]).kind
        = true ∧
      promoteStatements "pkg"
          [Stmt.functionCall "custom_macro"
            [PArg.named "name" (PValue.vstring "x")]] =
        promoteStatements "pkg" [] :=
  ⟨claim6_allowlist_promotion.1 "pkg" "go_binary(name = \"x\")"
      [⟨"//pkg:x", "go_binary", [("name", Value.string "x")]⟩] rfl _
      (List.mem_singleton.mpr rfl),
    claim6_allowlist_promotion.2 "pkg" [] []
      "custom_macro" [PArg.named "name" (PValue.vstring "x")] rfl⟩

/-! ## Claim C8 — invocation without a resolvable name

The specification claims an allow-listed invocation lacking a resolvable
`name` argument "is dropped from the result and a diagnostic is emitted for
it; it is never silently ignored".  In the source, `parse_statement` returns
`Ok(None)` for such an invocation: it is dropped with no diagnostic of any
kind — `parse`'s successful result is a bare rule list. -/

/-- Claim C8, counterexample: an allow-listed `go_binary` invocation without
a `name` attribute is dropped and `parse` returns exactly what it returns
for an empty file — no diagnostic distinguishes the two; likewise for a
non-string `name` (a numeric literal). -/
theorem claim8_counterexample :
    parse "pkg" "go_binary(srcs = [\"main.go\"])" = .ok [] ∧
      parse "pkg" "go_binary(name = 42)" = .ok [] ∧
      parse "pkg" "" = .ok [] :=
  ⟨rfl, rfl, rfl⟩

/-- Claim C8, amended: an allow-listed invocation whose `name` attribute does
not resolve to a string is dropped silently: it contributes nothing to the
parse result, which is indistinguishable from the result without the
invocation — no diagnostic is emitted. -/
theorem claim8_nameless_dropped_silently (pkg : String) (s₁ s₂ : List Stmt)
    (k : String) (args : List PArg) (_hk : is_bazel_rule k = true)
    (hn : ∀ n, (attributesOf args).lookup "name" ≠ some (Value.string n)) :
    promoteStatements pkg (s₁ ++ Stmt.functionCall k args :: s₂) =
      promoteStatements pkg (s₁ ++ s₂) := by
  simp [promoteStatements, List.filterMap_append, List.filterMap_cons,
    parse_statement_no_name pkg k args hn]

/-- Claim C8, witness: the amended theorem applied to a concrete `go_binary`
invocation that has only a `srcs` attribute. -/
theorem claim8_witness :
    promoteStatements "pkg"
        [Stmt.functionCall "go_binary"
          [PArg.named "srcs" (PValue.vlist [PValue.vstring "main.go"])]] =
      promoteStatements "pkg" [] :=
  claim8_nameless_dropped_silently "pkg" [] [] "go_binary"
    [PArg.named "srcs" (PValue.vlist [PValue.vstring "main.go"])] rfl
    (fun n h => by
      rw [show (attributesOf
          [PArg.named "srcs" (PValue.vlist [PValue.vstring "main.go"])]).lookup
          "name" = none from rfl] at h
      cases h)

/-! ## `BuildGraph`

Embedding of `bazel-lsp/src/bazel/build_graph.rs`.  The two `DashMap` indices
become association lists with the overwrite (`insert`) and
`entry(..).or_insert_with(Vec::new).push(..)` operations made explicit.  The
body of `BuildGraph::parse_rule` is only referenced, never given, in the
design sources; the graph operations are therefore stated over the list of
`BazelTarget`s extracted from a file, which is exactly what the
`parse_build_file` loop consumes. -/

/-- The `BazelTarget` struct (its `location` and `attributes` fields are
carried by no claim and are not modelled). -/
structure BazelTarget where
  label : String
  kind : String
  srcs : List String
  deps : List String
  deriving Repr, DecidableEq

/-- The `BuildGraph` struct: targets keyed by label, and the file→labels
index. -/
structure BuildGraph where
  targets : List (String × BazelTarget)
  file_to_targets : List (String × List String)
  deriving Repr, DecidableEq

def emptyGraph : BuildGraph := ⟨[], []⟩

/-- `self.file_to_targets.entry(src_path).or_insert_with(Vec::new).push(label)`:
append the label to the path's vector, creating the entry if absent. -/
def pushFileMapping : List (String × List String) → String → String →
    List (String × List String)
  | [], path, label => [(path, [label])]
  | (p, ls) :: rest, path, label =>
      if p == path then (p, ls ++ [label]) :: rest
      else (p, ls) :: pushFileMapping rest path label

/-- `self.targets.insert(label, target)`: insert with overwrite. -/
def insertTarget : List (String × BazelTarget) → String → BazelTarget →
    List (String × BazelTarget)
  | [], label, t => [(label, t)]
  | (l, t') :: rest, label, t =>
      if l == label then (l, t) :: rest
      else (l, t') :: insertTarget rest label t

/-- `path.parent().unwrap().join(src)`: resolve a source entry against the
directory of its BUILD file. -/
def joinPath (dir src : String) : String :=
  match src.data with
  | '/' :: _ => src
  | _ => dir ++ "/" ++ src

/-- The per-target body of the `parse_build_file` loop: push every resolved
source path into the file index, then insert the target by label. -/
def addTargetToGraph (g : BuildGraph) (dir : String) (t : BazelTarget) :
    BuildGraph :=
  { targets := insertTarget g.targets t.label t,
    file_to_targets :=
      t.srcs.foldl (fun m src => pushFileMapping m (joinPath dir src) t.label)
        g.file_to_targets }

/-- The `parse_build_file` loop over the targets extracted from one file. -/
def parse_build_file_targets (g : BuildGraph) (dir : String) :
    List BazelTarget → BuildGraph
  | [] => g
  | t :: ts => parse_build_file_targets (addTargetToGraph g dir t) dir ts

/-- `BuildGraph::get_target_for_file`: look the path up in the file index,
take the *first* label of its vector, and resolve it in the target map. -/
def get_target_for_file (g : BuildGraph) (path : String) : Option BazelTarget :=
  (g.file_to_targets.lookup path).bind fun labels =>
    labels.head?.bind fun label => g.targets.lookup label

/-! ### The write sequence of `parse_build_file`

`parse_build_file` updates the two shared `DashMap` indices one operation at
a time: for each target, one `entry(..).push(..)` per resolved source path,
then one `insert` into the target map.  Each operation is individually atomic
(a `DashMap` shard lock), but nothing makes the sequence atomic as a whole: a
concurrent reader can run between any two of them.  `IndexOp` names these
primitive writes, and `applyOp` is their effect. -/

inductive IndexOp where
  | mapSrc (path label : String)
  | putTarget (label : String) (t : BazelTarget)
  deriving Repr, DecidableEq

def applyOp (g : BuildGraph) : IndexOp → BuildGraph
  | .mapSrc path label =>
      { g with file_to_targets := pushFileMapping g.file_to_targets path label }
  | .putTarget label t =>
      { g with targets := insertTarget g.targets label t }

/-- The write sequence the loop body issues for one target. -/
def opsOfTarget (dir : String) (t : BazelTarget) : List IndexOp :=
  t.srcs.map (fun src => IndexOp.mapSrc (joinPath dir src) t.label) ++
    [IndexOp.putTarget t.label t]

/-- The write sequence for a whole file. -/
def opsOfFile (dir : String) : List BazelTarget → List IndexOp
  | [] => []
  | t :: ts => opsOfTarget dir t ++ opsOfFile dir ts

/-! ## `BuildGraph::scan_workspace`

The scan maps `parse_build_file` over the discovered files (the fallible
prefix of `parse_build_file` — `std::fs::read_to_string(path)?` and
`BuildParser::parse(Rule::file, &content)?` — is abstracted as the per-file
outcome `pr path`), then logs `"Failed to parse BUILD file: {e}"` for every
failed result and returns `Ok(())` regardless. -/

def scan_workspace (pr : String → Except String (List BazelTarget))
    (dirOf : String → String) :
    BuildGraph → List String → BuildGraph × List String
  | g, [] => (g, [])
  | g, path :: rest =>
      match pr path with
      | .ok ts =>
          scan_workspace pr dirOf (parse_build_file_targets g (dirOf path) ts)
            rest
      | .error e =>
          let (g', d) := scan_workspace pr dirOf g rest
          (g', ("Failed to parse BUILD file: " ++ e) :: d)

/-- The labels contributed by one file's parse outcome. -/
def labelsOfOutcome : Except String (List BazelTarget) → List String
  | .ok ts => ts.map (·.label)
  | .error _ => []

/-- All labels contributed by a scan over `files`. -/
def allLabels (pr : String → Except String (List BazelTarget)) :
    List String → List String
  | [] => []
  | q :: qs => labelsOfOutcome (pr q) ++ allLabels pr qs

/-! ### Supporting lemmas about the graph indices -/

/-- Combine a prior file-index entry with the labels pushed afterwards:
pushes append to an existing vector and create the entry otherwise. -/
def combineEntry : Option (List String) → List String → Option (List String)
  | some ls, cl => some (ls ++ cl)
  | none, [] => none
  | none, cl => some cl

theorem combineEntry_assoc (o : Option (List String)) (a b : List String) :
    combineEntry (combineEntry o a) b = combineEntry o (a ++ b) := by
  cases o with
  | some ls => simp [combineEntry]
  | none =>
      cases a with
      | nil => simp [combineEntry]
      | cons x xs => simp [combineEntry]

theorem lookup_pushFileMapping_self (m : List (String × List String))
    (path label : String) :
    (pushFileMapping m path label).lookup path =
      some (((m.lookup path).getD []) ++ [label]) := by
  induction m with
  | nil => simp [pushFileMapping, List.lookup]
  | cons e rest ih =>
      obtain ⟨p, ls⟩ := e
      by_cases h : p = path
      · subst h
        simp [pushFileMapping, List.lookup]
      · simp [pushFileMapping, List.lookup, beq_eq_false_iff_ne.mpr h,
          beq_eq_false_iff_ne.mpr (fun he => h he.symm), ih]

theorem lookup_pushFileMapping_other (m : List (String × List String))
    (path label p : String) (h : p ≠ path) :
    (pushFileMapping m path label).lookup p = m.lookup p := by
  induction m with
  | nil => simp [pushFileMapping, List.lookup, beq_eq_false_iff_ne.mpr h]
  | cons e rest ih =>
      obtain ⟨q, ls⟩ := e
      by_cases hq : q = path
      · subst hq
        simp [pushFileMapping, List.lookup, beq_eq_false_iff_ne.mpr h, ih]
      · simp [pushFileMapping, List.lookup, beq_eq_false_iff_ne.mpr hq, ih]

theorem lookup_insertTarget_self (m : List (String × BazelTarget))
    (l : String) (t : BazelTarget) :
    (insertTarget m l t).lookup l = some t := by
  induction m with
  | nil => simp [insertTarget, List.lookup]
  | cons e rest ih =>
      obtain ⟨l', t'⟩ := e
      by_cases h : l' = l
      · subst h
        simp [insertTarget, List.lookup]
      · simp [insertTarget, List.lookup, beq_eq_false_iff_ne.mpr h,
          beq_eq_false_iff_ne.mpr (fun he => h he.symm), ih]

theorem lookup_insertTarget_other (m : List (String × BazelTarget))
    (l : String) (t : BazelTarget) (l' : String) (h : l' ≠ l) :
    (insertTarget m l t).lookup l' = m.lookup l' := by
  induction m with
  | nil => simp [insertTarget, List.lookup, beq_eq_false_iff_ne.mpr h]
  | cons e rest ih =>
      obtain ⟨q, t'⟩ := e
      by_cases hq : q = l
      · subst hq
        simp [insertTarget, List.lookup, beq_eq_false_iff_ne.mpr h, ih]
      · simp [insertTarget, List.lookup, hq, ih]

/-- The labels one target pushes for a given resolved path, in source order. -/
def srcClaims (dir path label : String) (srcs : List String) : List String :=
  srcs.filterMap
    (fun s => if joinPath dir s == path then some label else none)

theorem foldl_push_lookup (dir path label : String) (srcs : List String) :
    ∀ m, (srcs.foldl
        (fun m' src => pushFileMapping m' (joinPath dir src) label) m).lookup
          path =
      combineEntry (m.lookup path) (srcClaims dir path label srcs) := by
  induction srcs with
  | nil =>
      intro m
      cases h : m.lookup path <;> simp [srcClaims, combineEntry, h]
  | cons src srcs ih =>
      intro m
      by_cases h : joinPath dir src = path
      · rw [List.foldl_cons, ih, h, lookup_pushFileMapping_self]
        cases hm : m.lookup path with
        | some ls =>
            simp [srcClaims, List.filterMap_cons, h, combineEntry, hm]
        | none =>
            simp [srcClaims, List.filterMap_cons, h, combineEntry, hm]
      · rw [List.foldl_cons, ih,
          lookup_pushFileMapping_other m (joinPath dir src) label path
            (fun he => h he.symm)]
        simp [srcClaims, List.filterMap_cons, h]

/-- All labels the `parse_build_file` loop pushes for a given path. -/
def claimantLabels (dir path : String) : List BazelTarget → List String
  | [] => []
  | t :: ts => srcClaims dir path t.label t.srcs ++ claimantLabels dir path ts

theorem parse_targets_f2t_lookup (dir path : String) (ts : List BazelTarget) :
    ∀ g, (parse_build_file_targets g dir ts).file_to_targets.lookup path =
      combineEntry (g.file_to_targets.lookup path)
        (claimantLabels dir path ts) := by
  induction ts with
  | nil =>
      intro g
      cases h : g.file_to_targets.lookup path <;>
        simp [parse_build_file_targets, claimantLabels, combineEntry, h]
  | cons t ts ih =>
      intro g
      show (parse_build_file_targets (addTargetToGraph g dir t) dir ts
          ).file_to_targets.lookup path = _
      rw [ih]
      show combineEntry ((t.srcs.foldl
          (fun m src => pushFileMapping m (joinPath dir src) t.label)
          g.file_to_targets).lookup path) _ = _
      rw [foldl_push_lookup, combineEntry_assoc]
      rfl

theorem parse_targets_other_label (dir : String) (ts : List BazelTarget)
    (l : String) :
    ∀ g, (∀ t ∈ ts, t.label ≠ l) →
      (parse_build_file_targets g dir ts).targets.lookup l =
        g.targets.lookup l := by
  induction ts with
  | nil => intro g _; rfl
  | cons t ts ih =>
      intro g h
      show (parse_build_file_targets (addTargetToGraph g dir t) dir ts
          ).targets.lookup l = _
      rw [ih _ (fun t' ht' => h t' (List.mem_cons_of_mem _ ht'))]
      show (insertTarget g.targets t.label t).lookup l = _
      exact lookup_insertTarget_other _ _ _ _
        (fun he => h t (List.mem_cons_self _ _) (by simpa using he.symm))

theorem parse_targets_lookup_mem (dir : String) (ts : List BazelTarget)
    (c : BazelTarget) :
    ∀ g, c ∈ ts → (ts.map (·.label)).Nodup →
      (parse_build_file_targets g dir ts).targets.lookup c.label = some c := by
  induction ts with
  | nil => intro g hc _; cases hc
  | cons t ts ih =>
      intro g hc hnd
      have hnd' : (ts.map (·.label)).Nodup := (List.nodup_cons.mp hnd).2
      have hfresh : t.label ∉ ts.map (·.label) := (List.nodup_cons.mp hnd).1
      rcases List.mem_cons.mp hc with rfl | hmem
      · show (parse_build_file_targets (addTargetToGraph g dir c) dir ts
            ).targets.lookup c.label = some c
        rw [parse_targets_other_label dir ts c.label _
            (fun t' ht' he => hfresh (he ▸ List.mem_map_of_mem (·.label) ht'))]
        show (insertTarget g.targets c.label c).lookup c.label = some c
        exact lookup_insertTarget_self _ _ _
      · exact ih _ hmem hnd'

theorem srcClaims_head (dir path label : String) (srcs : List String) :
    (srcClaims dir path label srcs).head? =
      if srcs.any (fun s => joinPath dir s == path) then some label
      else none := by
  induction srcs with
  | nil => simp [srcClaims]
  | cons src srcs ih =>
      cases hb : (joinPath dir src == path) with
      | true =>
          simp [srcClaims, List.filterMap_cons, beq_iff_eq.mp hb, hb]
      | false =>
          have hne := beq_eq_false_iff_ne.mp hb
          simp only [srcClaims, List.filterMap_cons, if_neg hne,
            List.any_cons, hb, Bool.false_or]
          simpa [srcClaims] using ih

theorem srcClaims_nil_of_not_any (dir path label : String)
    (srcs : List String)
    (h : srcs.any (fun s => joinPath dir s == path) = false) :
    srcClaims dir path label srcs = [] := by
  induction srcs with
  | nil => rfl
  | cons src srcs ih =>
      rw [List.any_cons, Bool.or_eq_false_iff] at h
      simp only [srcClaims, List.filterMap_cons, h.1, Bool.false_eq_true,
        if_false]
      simpa [srcClaims] using ih h.2

theorem claimantLabels_head (dir path : String) (ts : List BazelTarget) :
    (claimantLabels dir path ts).head? =
      (ts.find? (fun t => t.srcs.any (fun s => joinPath dir s == path))).map
        (·.label) := by
  induction ts with
  | nil => simp [claimantLabels]
  | cons t ts ih =>
      cases hb : t.srcs.any (fun s => joinPath dir s == path) with
      | true =>
          have hh := srcClaims_head dir path t.label t.srcs
          rw [hb, if_pos rfl] at hh
          have hf : List.find?
              (fun t => t.srcs.any fun s => joinPath dir s == path) (t :: ts) =
              some t :=
            List.find?_cons_of_pos _ hb
          rw [claimantLabels, List.head?_append, hh, hf]
          simp
      | false =>
          have hf : List.find?
              (fun t => t.srcs.any fun s => joinPath dir s == path) (t :: ts) =
              List.find?
                (fun t => t.srcs.any fun s => joinPath dir s == path) ts :=
            List.find?_cons_of_neg _ (by simp [hb])
          rw [claimantLabels, srcClaims_nil_of_not_any dir path t.label t.srcs
            hb, List.nil_append, hf, ih]

/-- How `get_target_for_file` behaves on the graph produced by scanning one
file into an empty graph: it returns the first target, in declaration order,
among those whose resolved sources claim the path — its kind plays no role. -/
theorem get_target_for_file_parse (dir : String) (ts : List BazelTarget)
    (path : String) (hnd : (ts.map (·.label)).Nodup) :
    get_target_for_file (parse_build_file_targets emptyGraph dir ts) path =
      ts.find? (fun t => t.srcs.any (fun s => joinPath dir s == path)) := by
  unfold get_target_for_file
  rw [parse_targets_f2t_lookup]
  show (combineEntry none (claimantLabels dir path ts)).bind _ = _
  cases hcl : claimantLabels dir path ts with
  | nil =>
      have hh := claimantLabels_head dir path ts
      rw [hcl] at hh
      simp only [combineEntry, Option.bind_none]
      cases hf : ts.find? (fun t => t.srcs.any (fun s => joinPath dir s == path)) with
      | none => rfl
      | some c => rw [hf] at hh; simp at hh
  | cons l rest =>
      have hh := claimantLabels_head dir path ts
      rw [hcl] at hh
      cases hf : ts.find? (fun t => t.srcs.any (fun s => joinPath dir s == path)) with
      | none => rw [hf] at hh; simp at hh
      | some c =>
          rw [hf] at hh
          simp only [List.head?_cons, Option.map_some'] at hh
          obtain rfl : l = c.label := Option.some.inj hh
          have hlook := parse_targets_lookup_mem dir ts c emptyGraph
            (List.mem_of_find?_eq_some hf) hnd
          simp [combineEntry, hlook]

/-! ## Claim C3 — `targetForFile` conflict resolution

The specification claims that when several targets claim the same file,
`targetForFile` prefers a non-test rule kind and only then falls back to
declaration order, and that it "does not simply return the first Target in
index order".  The source is `targets.first()` on the file-index vector:
exactly the first label in insertion (declaration) order, with no kind
preference of any sort. -/

/-- Claim C3, counterexample: a file claimed by a `go_test` target declared
first and a `go_library` target declared second resolves to the *test*
target, although a non-test claimant exists — the claimed non-test
preference does not happen, the first label in index order wins. -/
theorem claim3_counterexample :
    get_target_for_file
        (parse_build_file_targets emptyGraph "pkg"
          [⟨"//pkg:t", "go_test", ["a.go"], []⟩,
            ⟨"//pkg:l", "go_library", ["a.go"], []⟩]) "pkg/a.go" =
      some ⟨"//pkg:t", "go_test", ["a.go"], []⟩ ∧
    (parse_build_file_targets emptyGraph "pkg"
        [⟨"//pkg:t", "go_test", ["a.go"], []⟩,
          ⟨"//pkg:l", "go_library", ["a.go"], []⟩]).file_to_targets.lookup
        "pkg/a.go" = some ["//pkg:t", "//pkg:l"] ∧
    (parse_build_file_targets emptyGraph "pkg"
        [⟨"//pkg:t", "go_test", ["a.go"], []⟩,
          ⟨"//pkg:l", "go_library", ["a.go"], []⟩]).targets.lookup "//pkg:l" =
      some ⟨"//pkg:l", "go_library", ["a.go"], []⟩ :=
  ⟨by decide, by decide, by decide⟩

/-- Claim C3, amended: `get_target_for_file` returns the target declared
first among those claiming the path — the first label in index order — with
no preference between test and non-test kinds (the tie-break predicate
mentions only the sources, never the kind). -/
theorem claim3_first_claimant (dir : String) (ts : List BazelTarget)
    (path : String) (t : BazelTarget) (hnd : (ts.map (·.label)).Nodup)
    (hf : ts.find? (fun x => x.srcs.any (fun s => joinPath dir s == path)) =
      some t) :
    get_target_for_file (parse_build_file_targets emptyGraph dir ts) path =
      some t := by
  rw [get_target_for_file_parse dir ts path hnd, hf]

/-- Claim C3, witness: the amended theorem applied to the two-claimant
example — the first-declared claimant is returned although it is a test
target and a non-test claimant follows. -/
theorem claim3_witness :
    get_target_for_file
        (parse_build_file_targets emptyGraph "pkg"
          [⟨"//pkg:t", "go_test", ["a.go"], []⟩,
            ⟨"//pkg:l", "go_library", ["b.go", "a.go"], []⟩]) "pkg/a.go" =
      some ⟨"//pkg:t", "go_test", ["a.go"], []⟩ :=
  claim3_first_claimant "pkg"
    [⟨"//pkg:t", "go_test", ["a.go"], []⟩,
      ⟨"//pkg:l", "go_library", ["b.go", "a.go"], []⟩] "pkg/a.go"
    ⟨"//pkg:t", "go_test", ["a.go"], []⟩ (by decide) rfl

/-! ## Claim C7 — round trip from declared sources to `targetForFile`

The specification claims that for *every* target and every declared source
entry, resolving the entry against the owning package and looking it up
returns that same target.  The source indexes all claimants but
`get_target_for_file` returns only the first label of the vector, so the
round trip fails for any later target that shares a source file with an
earlier one; it holds when the target is the first (in particular the only)
claimant. -/

/-- Claim C7, counterexample: two targets declare the same source file; the
round trip holds for the first but fails for the second — looking up the
resolved path of one of `//pkg:b`'s declared sources returns `//pkg:a`. -/
theorem claim7_counterexample :
    "shared.go" ∈
        (BazelTarget.mk "//pkg:b" "go_library" ["shared.go"] []).srcs ∧
    get_target_for_file
        (parse_build_file_targets emptyGraph "pkg"
          [⟨"//pkg:a", "go_library", ["shared.go"], []⟩,
            ⟨"//pkg:b", "go_library", ["shared.go"], []⟩])
        (joinPath "pkg" "shared.go") =
      some ⟨"//pkg:a", "go_library", ["shared.go"], []⟩ ∧
    (⟨"//pkg:a", "go_library", ["shared.go"], []⟩ : BazelTarget) ≠
      ⟨"//pkg:b", "go_library", ["shared.go"], []⟩ :=
  ⟨by decide, by decide, by decide⟩

theorem find?_of_unique_claimant (dir : String) (pathkey : String)
    (t : BazelTarget)
    (ht : t.srcs.any (fun s' => joinPath dir s' == pathkey) = true) :
    ∀ ts : List BazelTarget, t ∈ ts →
    (∀ t' ∈ ts, t' ≠ t →
      t'.srcs.any (fun s' => joinPath dir s' == pathkey) = false) →
    ts.find? (fun x => x.srcs.any (fun s => joinPath dir s == pathkey)) =
      some t := by
  intro ts
  induction ts with
  | nil => intro h; cases h
  | cons hd tl ih =>
      intro hmem huniq
      by_cases hh : hd = t
      · subst hh
        exact List.find?_cons_of_pos _ ht
      · have hneg := huniq hd (List.mem_cons_self _ _) hh
        have hmem' : t ∈ tl := by
          rcases List.mem_cons.mp hmem with h | h
          · exact absurd h.symm hh
          · exact h
        rw [List.find?_cons_of_neg _ (by simp [hneg])]
        exact ih hmem'
          (fun t' ht' => huniq t' (List.mem_cons_of_mem _ ht'))

/-- Claim C7, amended: the round trip holds exactly for a target that is the
first claimant; in particular, if `t` declares `s` and no *other* target of
the file claims the resolved path, then `get_target_for_file` on the
resolved path returns `t`. -/
theorem claim7_round_trip_unique (dir : String) (ts : List BazelTarget)
    (t : BazelTarget) (s : String) (hnd : (ts.map (·.label)).Nodup)
    (ht : t ∈ ts) (hs : s ∈ t.srcs)
    (huniq : ∀ t' ∈ ts, t' ≠ t →
      t'.srcs.any (fun s' => joinPath dir s' == joinPath dir s) = false) :
    get_target_for_file (parse_build_file_targets emptyGraph dir ts)
        (joinPath dir s) = some t := by
  rw [get_target_for_file_parse dir ts (joinPath dir s) hnd]
  have hany : t.srcs.any (fun s' => joinPath dir s' == joinPath dir s) =
      true :=
    List.any_eq_true.mpr ⟨s, hs, beq_self_eq_true _⟩
  exact find?_of_unique_claimant dir (joinPath dir s) t hany ts ht huniq

/-- Claim C7, witness: the amended theorem applied to a target declaring
`["a.go", "b.go"]`, resolved for `"b.go"`. -/
theorem claim7_witness :
    get_target_for_file
        (parse_build_file_targets emptyGraph "pkg"
          [⟨"//pkg:server", "go_binary", ["a.go", "b.go"], []⟩])
        (joinPath "pkg" "b.go") =
      some ⟨"//pkg:server", "go_binary", ["a.go", "b.go"], []⟩ :=
  claim7_round_trip_unique "pkg"
    [⟨"//pkg:server", "go_binary", ["a.go", "b.go"], []⟩]
    ⟨"//pkg:server", "go_binary", ["a.go", "b.go"], []⟩ "b.go" (by decide)
    (by decide) (by decide)
    (by
      intro t' ht' hne
      exact absurd (by simpa using ht') hne)

/-! ## Claim C5 — partial-failure isolation of the workspace scan

`scan_workspace` parses every discovered file independently, logs one
`"Failed to parse BUILD file: .."` warning per failed result, and returns
`Ok(())`: one file's failure neither aborts the scan nor suppresses the
indexing of the other files' targets. -/

/-- The warnings the result loop of `scan_workspace` emits, in file order. -/
def scanDiags (pr : String → Except String (List BazelTarget)) :
    List String → List String
  | [] => []
  | q :: qs =>
      match pr q with
      | .ok _ => scanDiags pr qs
      | .error e => ("Failed to parse BUILD file: " ++ e) :: scanDiags pr qs

theorem scan_workspace_snd (pr : String → Except String (List BazelTarget))
    (dirOf : String → String) :
    ∀ (files : List String) (g : BuildGraph),
      (scan_workspace pr dirOf g files).2 = scanDiags pr files := by
  intro files
  induction files with
  | nil => intro g; rfl
  | cons f fs ih =>
      intro g
      cases hf : pr f with
      | ok ts => simp [scan_workspace, scanDiags, hf, ih]
      | error e => simp [scan_workspace, scanDiags, hf, ih]

theorem scan_workspace_fst_ok (pr : String → Except String (List BazelTarget))
    (dirOf : String → String) (f : String) (fs : List String)
    (g : BuildGraph) (ts : List BazelTarget) (hf : pr f = .ok ts) :
    (scan_workspace pr dirOf g (f :: fs)).1 =
      (scan_workspace pr dirOf
        (parse_build_file_targets g (dirOf f) ts) fs).1 := by
  simp [scan_workspace, hf]

theorem scan_workspace_fst_error
    (pr : String → Except String (List BazelTarget))
    (dirOf : String → String) (f : String) (fs : List String)
    (g : BuildGraph) (e : String) (hf : pr f = .error e) :
    (scan_workspace pr dirOf g (f :: fs)).1 =
      (scan_workspace pr dirOf g fs).1 := by
  simp [scan_workspace, hf]

theorem scanDiags_of_all_ok (pr : String → Except String (List BazelTarget)) :
    ∀ fs : List String, (∀ q ∈ fs, exceptIsError (pr q) = false) →
      scanDiags pr fs = [] := by
  intro fs
  induction fs with
  | nil => intro _; rfl
  | cons f fs ih =>
      intro h
      cases hf : pr f with
      | ok ts =>
          simp [scanDiags, hf, ih (fun q hq => h q (List.mem_cons_of_mem _ hq))]
      | error e =>
          have := h f (List.mem_cons_self _ _)
          rw [hf] at this
          cases this

theorem scan_targets_untouched (pr : String → Except String (List BazelTarget))
    (dirOf : String → String) (l : String) :
    ∀ (files : List String) (g : BuildGraph), l ∉ allLabels pr files →
      ((scan_workspace pr dirOf g files).1).targets.lookup l =
        g.targets.lookup l := by
  intro files
  induction files with
  | nil => intro g _; rfl
  | cons f fs ih =>
      intro g hl
      rw [allLabels] at hl
      have hl₁ : l ∉ labelsOfOutcome (pr f) :=
        fun hmem => hl (List.mem_append.mpr (Or.inl hmem))
      have hl₂ : l ∉ allLabels pr fs :=
        fun hmem => hl (List.mem_append.mpr (Or.inr hmem))
      cases hf : pr f with
      | ok ts =>
          rw [scan_workspace_fst_ok pr dirOf f fs g ts hf, ih _ hl₂,
            parse_targets_other_label]
          intro t ht he
          simp only [hf, labelsOfOutcome] at hl₁
          exact hl₁ (he ▸ List.mem_map_of_mem (·.label) ht)
      | error e =>
          rw [scan_workspace_fst_error pr dirOf f fs g e hf, ih _ hl₂]

theorem scan_lookup_mem (pr : String → Except String (List BazelTarget))
    (dirOf : String → String) :
    ∀ (files : List String) (g : BuildGraph) (q : String)
      (ts : List BazelTarget) (t : BazelTarget),
      (allLabels pr files).Nodup → q ∈ files → pr q = .ok ts → t ∈ ts →
      ((scan_workspace pr dirOf g files).1).targets.lookup t.label =
        some t := by
  intro files
  induction files with
  | nil => intro g q ts t _ hq; cases hq
  | cons f fs ih =>
      intro g q ts t hnd hq hok ht
      rw [allLabels] at hnd
      have hnd₂ : (allLabels pr fs).Nodup := (List.nodup_append.mp hnd).2.1
      rcases List.mem_cons.mp hq with rfl | hq'
      · rw [scan_workspace_fst_ok pr dirOf q fs g ts hok]
        have hlab : t.label ∈ labelsOfOutcome (pr q) := by
          simp only [hok, labelsOfOutcome]
          exact List.mem_map_of_mem (·.label) ht
        have hdisj : t.label ∉ allLabels pr fs :=
          fun hmem => (List.nodup_append.mp hnd).2.2 hlab hmem
        rw [scan_targets_untouched pr dirOf t.label fs _ hdisj]
        have hndts : (ts.map (·.label)).Nodup := by
          have := (List.nodup_append.mp hnd).1
          simp only [hok, labelsOfOutcome] at this
          exact this
        exact parse_targets_lookup_mem (dirOf q) ts t g ht hndts
      · cases hf : pr f with
        | ok ts' =>
            rw [scan_workspace_fst_ok pr dirOf f fs g ts' hf]
            exact ih _ q ts t hnd₂ hq' hok ht
        | error e =>
            rw [scan_workspace_fst_error pr dirOf f fs g e hf]
            exact ih _ q ts t hnd₂ hq' hok ht

theorem scanDiags_single_failure
    (pr : String → Except String (List BazelTarget)) (p e : String) :
    ∀ fs : List String, pr p = .error e →
      (∀ q ∈ fs, q ≠ p → exceptIsError (pr q) = false) → fs.count p = 1 →
      scanDiags pr fs = ["Failed to parse BUILD file: " ++ e] := by
  intro fs
  induction fs with
  | nil => intro _ _ hc; cases hc
  | cons f fs ih =>
      intro hp hothers hc
      by_cases hf : f = p
      · subst hf
        have hzero : fs.count f = 0 := by
          have := List.count_cons_self f fs
          omega
        have hnot : f ∉ fs := List.count_eq_zero.mp hzero
        rw [scanDiags, hp]
        rw [scanDiags_of_all_ok pr fs
          (fun q hq => hothers q (List.mem_cons_of_mem _ hq)
            (fun he => hnot (he ▸ hq)))]
      · have hok := hothers f (List.mem_cons_self _ _) hf
        cases hpf : pr f with
        | ok ts =>
            rw [scanDiags, hpf]
            refine ih hp (fun q hq => hothers q (List.mem_cons_of_mem _ hq)) ?_
            rw [List.count_cons] at hc
            simpa [hf] using hc
        | error e' =>
            rw [hpf] at hok
            cases hok

/-- Claim C5: when exactly one scanned file fails to parse, the scan emits
exactly the one diagnostic produced by that file's failure, and every target
of every other file is fully indexed (labels unique per the data model's
"labels are unique within one workspace scan").  A single file's failure
never aborts the scan of the others. -/
theorem claim5_partial_failure_isolation
    (pr : String → Except String (List BazelTarget)) (dirOf : String → String)
    (files : List String) (p e : String) (hp : pr p = .error e)
    (hothers : ∀ q ∈ files, q ≠ p → exceptIsError (pr q) = false)
    (hcount : files.count p = 1) (hnd : (allLabels pr files).Nodup) :
    (scan_workspace pr dirOf emptyGraph files).2 =
        ["Failed to parse BUILD file: " ++ e] ∧
      ∀ q ∈ files, q ≠ p → ∀ ts : List BazelTarget, pr q = .ok ts →
        ∀ t ∈ ts,
          ((scan_workspace pr dirOf emptyGraph files).1).targets.lookup
              t.label = some t := by
  constructor
  · rw [scan_workspace_snd pr dirOf files emptyGraph]
    exact scanDiags_single_failure pr p e files hp hothers hcount
  · intro q hq _ ts hok t ht
    exact scan_lookup_mem pr dirOf files emptyGraph q ts t hnd hq hok ht

/-- Claim C5, witness: a three-file scan whose middle file fails — the scan
reports exactly that failure and still indexes the targets of both other
files. -/
theorem claim5_witness :
    (scan_workspace
          (fun path =>
            if path == "a/BUILD" then
              .ok [⟨"//a:x", "go_library", ["x.go"], []⟩]
            else if path == "bad/BUILD" then .error "unexpected token"
            else .ok [⟨"//c:y", "go_binary", ["y.go"], []⟩])
          (fun path => path) emptyGraph
          ["a/BUILD", "bad/BUILD", "c/BUILD"]).2 =
        ["Failed to parse BUILD file: " ++ "unexpected token"] ∧
      ((scan_workspace
          (fun path =>
            if path == "a/BUILD" then
              .ok [⟨"//a:x", "go_library", ["x.go"], []⟩]
            else if path == "bad/BUILD" then .error "unexpected token"
            else .ok [⟨"//c:y", "go_binary", ["y.go"], []⟩])
          (fun path => path) emptyGraph
          ["a/BUILD", "bad/BUILD", "c/BUILD"]).1).targets.lookup "//a:x" =
        some ⟨"//a:x", "go_library", ["x.go"], []⟩ := by
  have h := claim5_partial_failure_isolation
    (fun path =>
      if path == "a/BUILD" then .ok [⟨"//a:x", "go_library", ["x.go"], []⟩]
      else if path == "bad/BUILD" then .error "unexpected token"
      else .ok [⟨"//c:y", "go_binary", ["y.go"], []⟩])
    (fun path => path) ["a/BUILD", "bad/BUILD", "c/BUILD"] "bad/BUILD"
    "unexpected token" rfl
    (by decide) (by decide) (by decide)
  exact ⟨h.1,
    h.2 "a/BUILD" (by decide) (by decide)
      [⟨"//a:x", "go_library", ["x.go"], []⟩] rfl
      ⟨"//a:x", "go_library", ["x.go"], []⟩ (by decide)⟩

/-! ## Claim C9 — atomicity of a file's index update

The specification claims a per-file update replaces the file's contribution
to both indices "as one indivisible step relative to concurrent readers": no
reader may observe a target present in one index but absent from the other.
In the source, `parse_build_file` issues one individually-atomic `DashMap`
operation per resolved source path and per target — first the file-index
pushes, then the target-map insert — with no lock spanning them (and it
removes nothing at all).  `opsOfFile` is that write sequence, and a
concurrent reader can observe the graph after any prefix of it. -/

theorem foldl_mapSrc_ops (dir label : String) (srcs : List String) :
    ∀ g : BuildGraph,
      ((srcs.map (fun src => IndexOp.mapSrc (joinPath dir src) label)).foldl
          applyOp g) =
        { g with file_to_targets :=
            (srcs.foldl
              (fun m src => pushFileMapping m (joinPath dir src) label)
              g.file_to_targets) } := by
  induction srcs with
  | nil => intro g; rfl
  | cons src srcs ih => intro g; simp [applyOp, ih]

/-- The fold of one target's write sequence is the loop body of
`parse_build_file`. -/
theorem opsOfTarget_fold (dir : String) (t : BazelTarget) (g : BuildGraph) :
    (opsOfTarget dir t).foldl applyOp g = addTargetToGraph g dir t := by
  rw [opsOfTarget, List.foldl_append, foldl_mapSrc_ops]
  rfl

/-- The fold of a file's write sequence is exactly `parse_build_file`'s
effect: the op list is the file update, spelled one primitive write at a
time. -/
theorem opsOfFile_fold (dir : String) (ts : List BazelTarget) :
    ∀ g : BuildGraph,
      (opsOfFile dir ts).foldl applyOp g = parse_build_file_targets g dir ts := by
  induction ts with
  | nil => intro g; rfl
  | cons t ts ih =>
      intro g
      rw [opsOfFile, List.foldl_append, opsOfTarget_fold,
        parse_build_file_targets, ih]

/-- Claim C9, counterexample: the write sequence of a one-target file is the
file-index push followed by the target-map insert (first conjunct: its fold
is the whole update); after only the first write — a state a concurrent
reader can observe, since each `DashMap` operation locks only its own shard —
the file index lists the label while the target map does not contain it, and
`get_target_for_file` on the claimed file returns nothing. -/
theorem claim9_counterexample :
    (opsOfFile "pkg" [⟨"//pkg:a", "go_library", ["a.go"], []⟩]).foldl applyOp
        emptyGraph =
      parse_build_file_targets emptyGraph "pkg"
        [⟨"//pkg:a", "go_library", ["a.go"], []⟩] ∧
    ((opsOfFile "pkg" [⟨"//pkg:a", "go_library", ["a.go"], []⟩]).take 1).foldl
        applyOp emptyGraph =
      ⟨[], [("pkg/a.go", ["//pkg:a"])]⟩ ∧
    (BuildGraph.mk [] [("pkg/a.go", ["//pkg:a"])]).file_to_targets.lookup
        "pkg/a.go" = some ["//pkg:a"] ∧
    (BuildGraph.mk [] [("pkg/a.go", ["//pkg:a"])]).targets.lookup "//pkg:a" =
      none ∧
    get_target_for_file (BuildGraph.mk [] [("pkg/a.go", ["//pkg:a"])])
        "pkg/a.go" = none :=
  ⟨by decide, by decide, by decide, by decide, by decide⟩

/-- Claim C9, amended: the update is not indivisible — for any target with at
least one source whose label is not yet in the target map, the state after
the file-index writes but before the target-map insert (a prefix of the
file's write sequence) shows the label in the file index while the target
map still lacks it. -/
theorem claim9_intermediate_state_violates (g : BuildGraph) (dir : String)
    (t : BazelTarget) (s : String) (rest : List String)
    (hsrcs : t.srcs = s :: rest)
    (hfresh : g.targets.lookup t.label = none) :
    ∃ labels : List String,
      (((opsOfTarget dir t).take t.srcs.length).foldl applyOp
          g).file_to_targets.lookup (joinPath dir s) = some labels ∧
      t.label ∈ labels ∧
      (((opsOfTarget dir t).take t.srcs.length).foldl applyOp
          g).targets.lookup t.label = none := by
  have htake : (opsOfTarget dir t).take t.srcs.length =
      t.srcs.map (fun src => IndexOp.mapSrc (joinPath dir src) t.label) := by
    rw [opsOfTarget]
    have hlen : t.srcs.length =
        (t.srcs.map (fun src => IndexOp.mapSrc (joinPath dir src) t.label)
          ).length := (List.length_map _ _).symm
    rw [hlen, List.take_left]
  rw [htake, foldl_mapSrc_ops]
  have hlook := foldl_push_lookup dir (joinPath dir s) t.label t.srcs
    g.file_to_targets
  have hclaims : srcClaims dir (joinPath dir s) t.label t.srcs =
      t.label :: srcClaims dir (joinPath dir s) t.label rest := by
    rw [hsrcs, srcClaims, List.filterMap_cons,
      if_pos (beq_self_eq_true (joinPath dir s))]
    rfl
  rw [hclaims] at hlook
  cases hg : g.file_to_targets.lookup (joinPath dir s) with
  | some ls =>
      rw [hg] at hlook
      exact ⟨ls ++ t.label :: srcClaims dir (joinPath dir s) t.label rest,
        hlook, List.mem_append.mpr (Or.inr (List.mem_cons_self _ _)), hfresh⟩
  | none =>
      rw [hg] at hlook
      exact ⟨t.label :: srcClaims dir (joinPath dir s) t.label rest, hlook,
        List.mem_cons_self _ _, hfresh⟩

/-- Claim C9, witness: the amended theorem at the one-target example. -/
theorem claim9_witness :
    ∃ labels : List String,
      (((opsOfTarget "pkg" ⟨"//pkg:a", "go_library", ["a.go"], []⟩).take
          1).foldl applyOp emptyGraph).file_to_targets.lookup
          (joinPath "pkg" "a.go") = some labels ∧
      "//pkg:a" ∈ labels ∧
      (((opsOfTarget "pkg" ⟨"//pkg:a", "go_library", ["a.go"], []⟩).take
          1).foldl applyOp emptyGraph).targets.lookup "//pkg:a" = none :=
  claim9_intermediate_state_violates emptyGraph "pkg"
    ⟨"//pkg:a", "go_library", ["a.go"], []⟩ "a.go" [] rfl rfl

/-! ## `BazelClient` and its query cache

Embedding of `bazel-lsp/src/bazel/client.rs`.  The query cache is
`LruCache<String, QueryResult>` with capacity 1000 — keyed by the query
string, holding the decoded result and *nothing else*: no timestamp, no
time-to-live, and no invalidation hook is reachable from anywhere (no file
watcher or graph update touches the client).  The subprocess is abstracted as
the function `tool` from query expression to its exit status and output; the
body of `parse_query_output` is only referenced in the design sources, so the
decode step is the parameter `decode`.  A query's third component records
whether this call spawned the subprocess. -/

structure ToolOutput where
  success : Bool
  stdout : String
  stderr : String

/-- `LruCache::new(NonZeroUsize::new(1000).unwrap())`. -/
def lruCapacity : Nat := 1000

/-- `LruCache::get`: on hit, return the value and move the key to the front
of the recency order. -/
def lru_get (cache : List (String × String)) (k : String) :
    Option String × List (String × String) :=
  match cache.lookup k with
  | some v => (some v, (k, v) :: cache.filter (fun p => !(p.1 == k)))
  | none => (none, cache)

/-- `LruCache::put`: insert at the front, evicting beyond capacity. -/
def lru_put (cache : List (String × String)) (k v : String) :
    List (String × String) :=
  ((k, v) :: cache.filter (fun p => !(p.1 == k))).take lruCapacity

/-- `BazelClient::query`: check the cache; on miss spawn the tool, bail with
`"Bazel query failed: {stderr}"` on a non-zero exit, decode the stdout,
cache and return the decoded result.  The `Bool` records whether the
subprocess was spawned by this call. -/
def query (tool : String → ToolOutput) (decode : String → Except String String)
    (cache : List (String × String)) (q : String) :
    Except String String × List (String × String) × Bool :=
  match lru_get cache q with
  | (some r, cache') => (.ok r, cache', false)
  | (none, cache₀) =>
      let out := tool q
      if out.success then
        match decode out.stdout with
        | .ok result => (.ok result, lru_put cache₀ q result, true)
        | .error e => (.error e, cache₀, true)
      else (.error ("Bazel query failed: " ++ out.stderr), cache₀, true)

/-! ## Claim C4 — query failure handling

A non-zero exit bails out with the tool's stderr in the error before any
caching happens: the failure is surfaced (never an empty result), the cache
is unchanged, and an immediately following identical call spawns the
subprocess again. -/

/-- Claim C4: if the query is not cached and the tool exits non-zero, `query`
returns the `QueryFailed`-style error carrying the tool's own diagnostic
text — not an empty result — leaves the cache exactly as it was, and the
immediately following identical call spawns the subprocess again. -/
theorem claim4_failure_not_cached (tool : String → ToolOutput)
    (decode : String → Except String String)
    (cache : List (String × String)) (q : String)
    (hmiss : cache.lookup q = none) (hfail : (tool q).success = false) :
    query tool decode cache q =
        (.error ("Bazel query failed: " ++ (tool q).stderr), cache, true) ∧
      (query tool decode (query tool decode cache q).2.1 q).2.2 = true := by
  have h1 : query tool decode cache q =
      (.error ("Bazel query failed: " ++ (tool q).stderr), cache, true) := by
    simp [query, lru_get, hmiss, hfail]
  exact ⟨h1, by rw [h1]; simp [query, lru_get, hmiss, hfail]⟩

/-- Claim C4, witness: the theorem applied to a concrete failing tool and an
empty cache. -/
theorem claim4_witness :
    query (fun _ => ⟨false, "", "no such target //a:b"⟩) (fun s => .ok s) []
        "deps(//a:b)" =
      (.error ("Bazel query failed: " ++ "no such target //a:b"), [], true) ∧
    (query (fun _ => ⟨false, "", "no such target //a:b"⟩) (fun s => .ok s)
        (query (fun _ => ⟨false, "", "no such target //a:b"⟩) (fun s => .ok s)
          [] "deps(//a:b)").2.1 "deps(//a:b)").2.2 = true :=
  claim4_failure_not_cached (fun _ => ⟨false, "", "no such target //a:b"⟩)
    (fun s => .ok s) [] "deps(//a:b)" rfl rfl

/-! ## Claim C2 — query cache: time-to-live and invalidation

The specification claims the cache entry "expires after a configured
time-to-live and is invalidated by any file change within the query's
affected package subtree".  The source cache is a plain LRU: entries carry no
timestamp, no TTL exists, and no code path invalidates the cache on a file
change (nothing outside `query` ever touches `query_cache`).  Two calls
spawn once — but a call after a file change returns the cached result with
no fresh subprocess, contradicting the claim's second half. -/

/-- Claim C2, counterexample: the first call spawns and caches; any file
change leaves the client state untouched (no invalidation mechanism exists
in the client), and the second identical call — however much later and
whatever changed on disk — returns the cached result without spawning the
subprocess, contradicting "a call after a file change triggers a fresh
invocation". -/
theorem claim2_counterexample :
    query (fun _ => ⟨true, "name: //a:b", ""⟩)
        (fun s => .ok s) [] "deps(//a:b)" =
      (.ok "name: //a:b",
        [("deps(//a:b)", "name: //a:b")], true) ∧
    (query (fun _ => ⟨true, "name: //a:b", ""⟩)
        (fun s => .ok s)
        [("deps(//a:b)", "name: //a:b")] "deps(//a:b)").2.2 =
      false :=
  ⟨rfl, rfl⟩

/-- `lru_put` leaves the inserted key retrievable (the fresh entry sits at
the front, within capacity). -/
theorem lookup_lru_put_self (cache : List (String × String)) (k v : String) :
    (lru_put cache k v).lookup k = some v := by
  rw [lru_put, lruCapacity, show (1000 : Nat) = 999 + 1 from rfl,
    List.take_succ_cons]
  simp [List.lookup]

/-- Claim C2, amended: once a `query(Q)` call succeeds, every following
identical call returns the cached result without spawning a subprocess —
with no time-to-live bound at all and regardless of any file change, since
the cached entry carries no timestamp and nothing invalidates the cache. -/
theorem claim2_cached_forever (tool : String → ToolOutput)
    (decode : String → Except String String)
    (cache : List (String × String)) (q r : String)
    (st₁ : List (String × String)) (sp : Bool)
    (h : query tool decode cache q = (.ok r, st₁, sp)) :
    (query tool decode st₁ q).1 = .ok r ∧
      (query tool decode st₁ q).2.2 = false := by
  cases hl : cache.lookup q with
  | some v =>
      simp only [query, lru_get, hl, Prod.mk.injEq] at h
      obtain ⟨h1, h2, _⟩ := h
      obtain rfl : v = r := Except.ok.inj h1
      subst h2
      constructor <;> simp [query, lru_get, List.lookup]
  | none =>
      simp only [query, lru_get, hl] at h
      cases hs : (tool q).success with
      | false => simp [hs] at h
      | true =>
          cases hd : decode (tool q).stdout with
          | error e => simp [hs, hd] at h
          | ok result =>
              simp only [hs, hd, if_true, Prod.mk.injEq] at h
              obtain ⟨h1, h2, _⟩ := h
              obtain rfl : result = r := Except.ok.inj h1
              subst h2
              constructor <;> simp [query, lru_get, lookup_lru_put_self]

/-- Claim C2, witness: the amended theorem applied to the concrete first
call of the counterexample scenario. -/
theorem claim2_witness :
    (query (fun _ => ⟨true, "out", ""⟩) (fun s => .ok s)
        [("deps(//a:b)", "out")] "deps(//a:b)").1 = .ok "out" ∧
      (query (fun _ => ⟨true, "out", ""⟩) (fun s => .ok s)
        [("deps(//a:b)", "out")] "deps(//a:b)").2.2 = false :=
  claim2_cached_forever (fun _ => ⟨true, "out", ""⟩) (fun s => .ok s) []
    "deps(//a:b)" "out" [("deps(//a:b)", "out")] true rfl

/-! ## `ParseCache`

Embedding of `bazel-lsp/src/bazel/cache.rs`.  An entry stores the parsed
rules, the blake3 hash of the content they were parsed from, and the parse
timestamp; `blake3::hash` is abstracted as the parameter `hashFn`, `Instant`
as a `Nat` clock with `elapsed = now - timestamp`. -/

structure CachedParse where
  rules : List BRule
  hash : Nat
  timestamp : Nat

/-- `DashMap::insert` for the parse cache (overwrite). -/
def insertCache : List (String × CachedParse) → String → CachedParse →
    List (String × CachedParse)
  | [], path, e => [(path, e)]
  | (p, e') :: rest, path, e =>
      if p == path then (p, e) :: rest
      else (p, e') :: insertCache rest path e

/-- `ParseCache::get_or_parse`: hash the supplied content; if a cached entry
exists whose stored hash equals it and whose age is within the TTL, return
its rules and leave the cache unchanged; otherwise run `parse_fn` — an error
propagates without caching — and store a fresh entry with the new hash and
timestamp. -/
def get_or_parse (hashFn : String → Nat) (ttl : Nat)
    (cache : List (String × CachedParse)) (now : Nat) (path content : String)
    (parse_fn : String → Except String (List BRule)) :
    Except String (List BRule) × List (String × CachedParse) :=
  let hash := hashFn content
  let hit : Option (List BRule) :=
    match cache.lookup path with
    | some cached =>
        if cached.hash = hash ∧ now - cached.timestamp < ttl then
          some cached.rules
        else none
    | none => none
  match hit with
  | some rules => (.ok rules, cache)
  | none =>
      match parse_fn content with
      | .ok rules => (.ok rules, insertCache cache path ⟨rules, hash, now⟩)
      | .error e => (.error e, cache)

/-! ## Claim C10 — hash- and TTL-guarded parse cache

`get_or_parse` returns a previously cached rules vector exactly when the
stored hash matches the hash of the content supplied *in this call* and the
entry is younger than the TTL; in every other case it re-parses the supplied
content and (on success) stores a fresh entry.  A cached result computed
from content with a different hash is therefore never returned. -/

/-- Claim C10: the cached rules are returned only on a hash match within the
TTL (first conjunct, cache unchanged); a stale or hash-mismatched entry and
an absent entry both lead to a re-parse of the supplied content, stored as a
fresh entry carrying the new hash and timestamp (second and third
conjuncts). -/
theorem claim10_get_or_parse_guard (hashFn : String → Nat) (ttl : Nat)
    (cache : List (String × CachedParse)) (now : Nat) (path content : String)
    (parse_fn : String → Except String (List BRule)) :
    (∀ c, cache.lookup path = some c → c.hash = hashFn content →
        now - c.timestamp < ttl →
        get_or_parse hashFn ttl cache now path content parse_fn =
          (.ok c.rules, cache)) ∧
      (∀ c, cache.lookup path = some c →
        ¬(c.hash = hashFn content ∧ now - c.timestamp < ttl) →
        ∀ rules, parse_fn content = .ok rules →
        get_or_parse hashFn ttl cache now path content parse_fn =
          (.ok rules,
            insertCache cache path ⟨rules, hashFn content, now⟩)) ∧
      (cache.lookup path = none →
        ∀ rules, parse_fn content = .ok rules →
        get_or_parse hashFn ttl cache now path content parse_fn =
          (.ok rules,
            insertCache cache path ⟨rules, hashFn content, now⟩)) := by
  refine ⟨?_, ?_, ?_⟩
  · intro c hc hh ht
    simp [get_or_parse, hc, hh, ht]
  · intro c hc hmiss rules hparse
    simp [get_or_parse, hc, if_neg hmiss, hparse]
  · intro hnone rules hparse
    simp [get_or_parse, hnone, hparse]

/-- Claim C10, witness: the theorem applied with `String.length` as the
hash: a fresh same-hash entry is returned from the cache, while the same
entry queried with different-hash content is re-parsed and replaced. -/
theorem claim10_witness :
    get_or_parse String.length 60
        [("p/BUILD", ⟨[⟨"//p:a", "go_binary", []⟩], 5, 100⟩)] 130 "p/BUILD"
        "12345" (fun _ => .ok []) =
      (.ok [⟨"//p:a", "go_binary", []⟩],
        [("p/BUILD", ⟨[⟨"//p:a", "go_binary", []⟩], 5, 100⟩)]) ∧
    get_or_parse String.length 60
        [("p/BUILD", ⟨[⟨"//p:a", "go_binary", []⟩], 5, 100⟩)] 130 "p/BUILD"
        "123456" (fun _ => .ok []) =
      (.ok [], [("p/BUILD", ⟨[], 6, 130⟩)]) := by
  constructor
  · exact (claim10_get_or_parse_guard String.length 60
      [("p/BUILD", ⟨[⟨"//p:a", "go_binary", []⟩], 5, 100⟩)] 130 "p/BUILD"
      "12345" (fun _ => .ok [])).1 ⟨[⟨"//p:a", "go_binary", []⟩], 5, 100⟩ rfl
      (by decide) (by decide)
  · exact (claim10_get_or_parse_guard String.length 60
      [("p/BUILD", ⟨[⟨"//p:a", "go_binary", []⟩], 5, 100⟩)] 130 "p/BUILD"
      "123456" (fun _ => .ok [])).2.1 ⟨[⟨"//p:a", "go_binary", []⟩], 5, 100⟩
      rfl (by decide) [] rfl

end VBE
